import Mathlib

/-!
Verification development for the draken task-execution and streaming
pipeline.  The server code is shallowly embedded: the persisted task row,
the run registry, the SSE subscriber table and the handler/route bodies of
`src/routes/tasks.ts` (the version with follow-ups and session capture),
the stdout parser and process-lifecycle handlers of `src/docker/manager.ts`
(`runTask`, `sendInputToTask`, `stopContainer`), and the WebSocket upgrade
gate and broadcast framing of `src/websocket/terminal.ts`.

Conventions of the embedding:
- JavaScript strings are Lean `String`s; the runner's byte-stream parser is
  modelled on `List Char` so chunk concatenation and line splitting can be
  reasoned about by structural induction.
- The SQLite row updates (`updateTaskStatus`, `updateTaskCompleted`,
  `appendTaskLogs`, `updateTaskSessionId` of `src/db/queries.ts`) become
  functional updates of a `TaskRow`.
- `JSON.parse` of a stream line is an uninterpreted parameter
  `parse : List Char → Option StreamJson`; the interpretation of a parsed
  record (`session_id` capture, assistant/result/error dispatch) is
  embedded concretely.
- An SSE `Response` is a `Conn`: the list of framed JSON payloads written
  to it plus a closed flag.  `JSON.stringify` payloads are compared as
  structured `WireMsg` values whose fields mirror the object keys.
-/

namespace Draken

/-- Task status values stored in the `tasks.status` column. -/
inductive Status where
  | pending
  | running
  | completed
  | failed
deriving DecidableEq, Repr

/-- The string the status is persisted and framed as. -/
def Status.str : Status → String
  | .pending => "pending"
  | .running => "running"
  | .completed => "completed"
  | .failed => "failed"

/-- A JSON payload written to a subscriber, with one optional field per
object key used by the source (`data`, `sessionId`, `status`, `exitCode`,
`message`); `type` is the discriminating tag. -/
structure WireMsg where
  type : String
  data : Option String := none
  sessionId : Option String := none
  status : Option String := none
  exitCode : Option Int := none
  message : Option String := none
deriving DecidableEq, Repr

/-- `\x7b type: 'log', data \x7d` as written by the SSE log handler. -/
def frameLog (data : String) : WireMsg :=
  { type := "log", data := some data }

/-- `\x7b type: 'session', sessionId \x7d` as written by the SSE session handler. -/
def frameSession (sessionId : String) : WireMsg :=
  { type := "session", sessionId := some sessionId }

/-- `\x7b type: 'end', status, exitCode \x7d` as written by the live SSE end handler. -/
def frameEnd (status : String) (exitCode : Int) : WireMsg :=
  { type := "end", status := some status, exitCode := some exitCode }

/-- `\x7b type: 'end', status \x7d` as written by the SSE replay path for an
already-terminal task (note: no `exitCode` key in the source here). -/
def frameEndReplay (status : String) : WireMsg :=
  { type := "end", status := some status }

/-- `\x7b type: 'error', message \x7d` as written by the SSE error handler. -/
def frameError (message : String) : WireMsg :=
  { type := "error", message := some message }

/-- The persisted columns of one row of the `tasks` table that the
pipeline mutates.  A NULL `logs` column and the empty string behave
identically under the source's truthiness tests, so both are `""`. -/
structure TaskRow where
  status : Status
  containerId : Option String
  logs : String
  sessionId : Option String
  completedAt : Bool
deriving DecidableEq, Repr

/-- `updateTaskStatus(id, status, containerId?)`: sets the status and, when a
container reference is passed, also the `container_id` column. -/
def updateTaskStatus (t : TaskRow) (s : Status) (containerId : Option String) : TaskRow :=
  match containerId with
  | some c => { t with status := s, containerId := some c }
  | none => { t with status := s }

/-- `updateTaskCompleted(id, status)`: sets the status and the
`completed_at` timestamp. -/
def updateTaskCompleted (t : TaskRow) (s : Status) : TaskRow :=
  { t with status := s, completedAt := true }

/-- `appendTaskLogs(id, newLogs)`: reads the current `logs` column and
writes back `currentLogs + newLogs`. -/
def appendTaskLogs (t : TaskRow) (newLogs : String) : TaskRow :=
  { t with logs := t.logs ++ newLogs }

/-- `updateTaskSessionId(id, sessionId)`: unconditional overwrite of the
`session_id` column. -/
def updateTaskSessionId (t : TaskRow) (sessionId : String) : TaskRow :=
  { t with sessionId := some sessionId }

/-- The live child process held in `activeProcesses` for a task:
whether its stdin was destroyed, and everything written to its stdin. -/
structure Proc where
  stdinDestroyed : Bool
  stdinWritten : String
deriving DecidableEq, Repr

/-- One SSE response stream: the client-side id we track it by, the framed
payloads written to it, and whether `res.end()` was called. -/
structure Conn where
  cid : Nat
  msgs : List WireMsg
  closed : Bool
deriving DecidableEq, Repr

/-- Server state for a single task id: its persisted row, its
`activeProcesses` entry, the `logSubscribers` entry (ids of registered
responses, in push order) and every response stream ever opened. -/
structure SrvState where
  task : TaskRow
  proc : Option Proc
  subs : List Nat
  conns : List Conn
deriving DecidableEq, Repr

/-- `subscribers.forEach(s => s.write(frame))`, optionally followed by
`s.end()`: every response registered in `subs` receives the payload. -/
def writeToSubs (subs : List Nat) (m : WireMsg) (andEnd : Bool) (conns : List Conn) : List Conn :=
  conns.map fun c =>
    if c.cid ∈ subs then { c with msgs := c.msgs ++ [m], closed := c.closed || andEnd } else c

/-- `logEmitter.on('log')` handler: append the chunk to the persisted log
and broadcast a `log` frame to the registered subscribers. -/
def onLog (st : SrvState) (data : String) : SrvState :=
  { st with
      task := appendTaskLogs st.task data
      conns := writeToSubs st.subs (frameLog data) false st.conns }

/-- `logEmitter.on('session')` handler: persist the session id (an
unconditional overwrite) and broadcast a `session` frame. -/
def onSession (st : SrvState) (sessionId : String) : SrvState :=
  { st with
      task := updateTaskSessionId st.task sessionId
      conns := writeToSubs st.subs (frameSession sessionId) false st.conns }

/-- `logEmitter.on('end')` handler: status is `completed` exactly when the
exit code is `0`, else `failed`; persist it with the completion timestamp,
send every subscriber the `end` frame, end their streams, and drop the
subscriber entry. -/
def onEnd (st : SrvState) (exitCode : Int) : SrvState :=
  let status := if exitCode = 0 then Status.completed else Status.failed
  { st with
      task := updateTaskCompleted st.task status
      conns := writeToSubs st.subs (frameEnd status.str exitCode) true st.conns
      subs := [] }

/-- `logEmitter.on('error')` handler: append the error text to the log,
persist `failed`, send every subscriber the `error` frame, end their
streams, and drop the subscriber entry. -/
def onError (st : SrvState) (msg : String) : SrvState :=
  { st with
      task := updateTaskCompleted (appendTaskLogs st.task ("\nError: " ++ msg ++ "\n")) Status.failed
      conns := writeToSubs st.subs (frameError msg) true st.conns
      subs := [] }

/-- `dockerProcess.on('close', code => ...)`: remove the registry entry and
emit `end(code ?? 0)` — a `null` exit code (process killed by a signal) is
coalesced to `0`. -/
def procClose (st : SrvState) (code : Option Int) : SrvState :=
  onEnd { st with proc := none } (code.getD 0)

/-- `dockerProcess.on('error', err => ...)`: remove the registry entry and
emit the `error` event. -/
def procError (st : SrvState) (msg : String) : SrvState :=
  onError { st with proc := none } msg

/-- An HTTP response of one of the task routes. -/
inductive Resp where
  | ok (body : String)
  | err (status : Nat) (error : String)
deriving DecidableEq, Repr

/-- Whether the response reports success. -/
def Resp.isOk : Resp → Bool
  | .ok _ => true
  | .err _ _ => false

/-- `POST /:id/stop`: requires status `running` and a stored container
reference, else 400; on success signals the process (`stopContainer`, which
itself mutates no server state), persists `failed` with the completion
timestamp and appends the synthetic stop marker to the log. -/
def stopRoute (st : SrvState) : Resp × SrvState :=
  if st.task.status ≠ Status.running ∨ st.task.containerId = none then
    (Resp.err 400 "Task is not running", st)
  else
    (Resp.ok "Task stopped",
      { st with task := appendTaskLogs (updateTaskCompleted st.task Status.failed) "\n[Task stopped by user]\n" })

/-- A JSON value that can stand in the request body's `input` field. -/
inductive JsVal where
  | str (s : String)
  | num (n : Int)
  | bool (b : Bool)
  | null
deriving DecidableEq, Repr

/-- JavaScript truthiness of a `JsVal`. -/
def truthy : JsVal → Bool
  | .str s => s ≠ ""
  | .num n => n ≠ 0
  | .bool b => b
  | .null => false

/-- JavaScript string coercion of a `JsVal` (template literal / `+`). -/
def jsValToString : JsVal → String
  | .str s => s
  | .num n => toString n
  | .bool b => if b then "true" else "false"
  | .null => "null"

/-- The body guard `if (!input && input !== '')` of `POST /:id/input`:
an absent field is `undefined` (falsy, and not `''`). -/
def inputRejected (input : Option JsVal) : Bool :=
  (match input with
   | none => true
   | some v => !truthy v)
  && input ≠ some (JsVal.str "")

/-- `sendInputToTask(taskId, input)`: if a live process is registered and
its stdin is not destroyed, write `input + '\n'` and report `true`, else
report `false`. -/
def sendInputToTask (st : SrvState) (input : String) : Bool × SrvState :=
  match st.proc with
  | some p =>
      if !p.stdinDestroyed then
        (true, { st with proc := some { p with stdinWritten := p.stdinWritten ++ (input ++ "\n") } })
      else
        (false, st)
  | none => (false, st)

/-- `POST /:id/input`: body guard, then status must be `running`, then a
registry entry must exist (`isTaskRunning`); on an accepted write the
echo line `"\n> " + input + "\n"` is appended to the persisted log and
broadcast as a `log` frame to the registered subscribers. -/
def inputRoute (st : SrvState) (input : Option JsVal) : Resp × SrvState :=
  if inputRejected input then
    (Resp.err 400 "Input is required", st)
  else if st.task.status ≠ Status.running then
    (Resp.err 400 "Task is not running", st)
  else if st.proc = none then
    (Resp.err 400 "Task process not found", st)
  else
    match input with
    | none =>
        -- unreachable: an absent field always fails the body guard
        (Resp.err 400 "Input is required", st)
    | some v =>
        let text := jsValToString v
        let res := sendInputToTask st text
        if res.1 then
          let echo := "\n> " ++ text ++ "\n"
          (Resp.ok "Input sent",
            { res.2 with
                task := appendTaskLogs res.2.task echo
                conns := writeToSubs res.2.subs (frameLog echo) false res.2.conns })
        else
          (Resp.err 500 "Failed to send input", res.2)

/-- Body of `GET /:id/logs` after the auth gate: replay the persisted log
as one `log` frame when it is non-empty; if the task is already terminal,
write the replay `end` frame (which carries no exit code) and end the
response without registering it; otherwise register the response in
`logSubscribers`. -/
def sseSubscribeBody (st : SrvState) (cid : Nat) : Resp × SrvState :=
  let replay : List WireMsg := if st.task.logs ≠ "" then [frameLog st.task.logs] else []
  if st.task.status = Status.completed ∨ st.task.status = Status.failed then
    (Resp.ok "sse",
      { st with conns := st.conns ++ [⟨cid, replay ++ [frameEndReplay st.task.status.str], true⟩] })
  else
    (Resp.ok "sse",
      { st with
          conns := st.conns ++ [⟨cid, replay, false⟩]
          subs := st.subs ++ [cid] })

/-- `GET /:id/logs` with its auth gate: when an auth config is present the
`token` query parameter is required and verified (`jwt.verify` is the
uninterpreted `verify`), else 401 before any stream state is touched. -/
def sseSubscribe (verify : String → String → Bool) (auth : Option String)
    (token : Option String) (st : SrvState) (cid : Nat) : Resp × SrvState :=
  match auth with
  | some secret =>
      match token with
      | none => (Resp.err 401 "Authentication required", st)
      | some tok =>
          if verify tok secret then sseSubscribeBody st cid
          else (Resp.err 401 "Invalid token", st)
  | none => sseSubscribeBody st cid

/-- The occurrences that drive a task's server state: runner events,
process lifecycle callbacks and the HTTP requests of the task routes. -/
inductive Act where
  | emitLog (data : String)
  | emitSession (sessionId : String)
  | procClosed (code : Option Int)
  | procErrored (msg : String)
  | stopReq
  | inputReq (body : Option JsVal)
  | sseReq (cid : Nat)
deriving DecidableEq, Repr

/-- One step of the per-task machine (responses discarded). -/
def step (st : SrvState) : Act → SrvState
  | .emitLog d => onLog st d
  | .emitSession s => onSession st s
  | .procClosed c => procClose st c
  | .procErrored m => procError st m
  | .stopReq => (stopRoute st).2
  | .inputReq b => (inputRoute st b).2
  | .sseReq cid => (sseSubscribeBody st cid).2

/-- The framed payloads a given response stream has received. -/
def connMsgs (st : SrvState) (cid : Nat) : Option (List WireMsg) :=
  (st.conns.find? fun c => c.cid == cid).map Conn.msgs

/-! ### The runner's stdout parser (`runTask` data handler)

The byte stream is modelled as `List Char` so that arbitrary chunkings can
be compared by induction.  `buffer += chunk; lines = buffer.split('\n');
buffer = lines.pop() || ''` becomes `splitNL`, `dropLast` and `getLastD`. -/

/-- `s.split('\n')` of JavaScript on a character list: always non-empty,
`"a\nb"` gives `["a","b"]`, a trailing newline gives a final `[]`. -/
def splitNL : List Char → List (List Char)
  | [] => [[]]
  | c :: cs =>
    if c = '\n' then [] :: splitNL cs
    else
      match splitNL cs with
      | [] => [[c]]
      | l :: ls => (c :: l) :: ls

/-- `!line.trim()`: the line consists of whitespace only. -/
def isBlank (s : List Char) : Bool :=
  s.all fun c => c.isWhitespace

/-- One content block of an assistant record (`message.content`). -/
inductive Block where
  | text (t : List Char)
  | toolUse (name : List Char)
  | other
deriving DecidableEq, Repr

/-- The fields of a successfully parsed stream-json record that the
handler reads: `session_id`, `type`, `message.content` for assistant
records, `result`, and for error records the value of
`event.error?.message || JSON.stringify(event)` as one opaque text. -/
structure StreamJson where
  sessionId : Option (List Char) := none
  type : List Char := []
  content : List Block := []
  result : Option (List Char) := none
  errText : List Char := []
deriving DecidableEq, Repr

/-- A runner event emitted while parsing stdout (`log` or `session`;
the terminal events come from the process lifecycle callbacks). -/
inductive REv where
  | log (data : List Char)
  | session (sessionId : List Char)
deriving DecidableEq, Repr

/-- Emission for one block of an assistant record: text verbatim, a tool
invocation as the bracketed annotation, anything else nothing. -/
def blockEmits : Block → List REv
  | .text t => [REv.log t]
  | .toolUse name => [REv.log ("\n[Tool: ".data ++ name ++ "]\n".data)]
  | .other => []

/-- Emission for one successfully parsed record: a `session` event for any
record carrying a `session_id`, then the type dispatch
(assistant blocks / final result / error text). -/
def structuredEmits (e : StreamJson) : List REv :=
  (match e.sessionId with
   | some sid => [REv.session sid]
   | none => []) ++
  (if e.type = "assistant".data then e.content.flatMap blockEmits
   else if e.type = "result".data then
     match e.result with
     | some r => [REv.log ("\n".data ++ r ++ "\n".data)]
     | none => []
   else if e.type = "error".data then [REv.log ("\nError: ".data ++ e.errText ++ "\n".data)]
   else [])

/-- Processing of one complete line: whitespace-only lines are skipped
before any parse attempt; a parsed record goes through `structuredEmits`;
a line that fails to parse is emitted as raw text with its newline. -/
def lineEmits (parse : List Char → Option StreamJson) (line : List Char) : List REv :=
  if isBlank line then []
  else
    match parse line with
    | some e => structuredEmits e
    | none => [REv.log (line ++ ['\n'])]

/-- The `stdout.on('data')` handler: append the chunk to the buffer, split
on newlines, keep the unterminated tail as the new buffer and process every
completed line. -/
def onChunk (parse : List Char → Option StreamJson) (buf chunk : List Char) :
    List REv × List Char :=
  let lines := splitNL (buf ++ chunk)
  (lines.dropLast.flatMap (lineEmits parse), lines.getLastD [])

/-- A whole stream delivered as a list of chunks, starting from the empty
buffer; the events emitted and the final (never flushed) buffer. -/
def runChunks (parse : List Char → Option StreamJson) (chunks : List (List Char)) :
    List REv × List Char :=
  chunks.foldl (fun acc chunk =>
    let out := onChunk parse acc.2 chunk
    (acc.1 ++ out.1, out.2)) ([], [])

/-! ### The WebSocket transport (`src/websocket/terminal.ts`) -/

/-- Outcome of the raw-socket phase of an upgrade attempt. -/
inductive UpgradeResp where
  | destroyed
  | badRequest
  | unauthorized
  | upgraded
deriving DecidableEq, Repr

/-- What an upgrade attempt did: the socket-level response, whether the
client was added to `taskClients`, and how many WebSocket messages were
sent during the handshake (always zero — this transport replays nothing). -/
structure UpgradeOutcome where
  resp : UpgradeResp
  registered : Bool
  wsMessages : Nat
deriving DecidableEq, Repr

/-- The `server.on('upgrade')` handler: path check, then
`parseInt(searchParams.get('taskId') || '')` (modelled as `Option Int`,
`none` standing for `NaN`) checked for a positive value, then — only
then — the auth gate: with an auth config a token is required and
verified, else `401 Unauthorized`; an admitted client is registered. -/
def wsUpgrade (verify : String → String → Bool) (pathname : String)
    (taskId : Option Int) (token : Option String) (authCfg : Option String) : UpgradeOutcome :=
  if pathname ≠ "/ws/terminal" then ⟨.destroyed, false, 0⟩
  else if (match taskId with
           | none => true
           | some n => n ≤ 0) then ⟨.badRequest, false, 0⟩
  else
    match authCfg with
    | some secret =>
        match token with
        | none => ⟨.unauthorized, false, 0⟩
        | some tok =>
            if verify tok secret then ⟨.upgraded, true, 0⟩
            else ⟨.unauthorized, false, 0⟩
    | none => ⟨.upgraded, true, 0⟩

/-! ### Wire framing of the two transports -/

/-- An event as handed to the fan-out layer. -/
inductive Ev where
  | elog (data : String)
  | esession (sessionId : String)
  | eend (status : String) (exitCode : Int)
  | eerror (message : String)
deriving DecidableEq, Repr

/-- How the pull transport (the SSE handlers of the tasks router) frames
each event kind. -/
def pullFrame : Ev → WireMsg
  | .elog d => frameLog d
  | .esession s => frameSession s
  | .eend s c => frameEnd s c
  | .eerror m => frameError m

/-- How the push transport (the `broadcast*` functions of `terminal.ts`)
frames each event kind; `broadcastOutput` tags its payload `output`. -/
def pushFrame : Ev → WireMsg
  | .elog d => { type := "output", data := some d }
  | .esession s => { type := "session", sessionId := some s }
  | .eend s c => { type := "end", status := some s, exitCode := some c }
  | .eerror m => { type := "error", message := some m }

/-! ### Sample states used by witnesses and counterexamples -/

/-- A task in `running` status with a stored process reference, an empty
log, a live registered process and no subscriber. -/
def sampleRunning : SrvState :=
  ⟨⟨Status.running, some "pid-1", "", none, false⟩, some ⟨false, ""⟩, [], []⟩

/-- Like `sampleRunning` but with one registered subscriber (id 0). -/
def sampleRunningSub : SrvState :=
  ⟨⟨Status.running, some "pid-1", "", none, false⟩, some ⟨false, ""⟩, [0], [⟨0, [], false⟩]⟩

/-! ### Claim theorems -/

/-- C1: on a running task with a known process reference, the stop route
succeeds, forces `failed` status and appends the stop marker — but when
the stopped process's exit is then reported (here: a racing clean exit,
`close` with code 0), the `end` handler reclassifies the same run as
`completed`, contradicting the stop contract's "never `completed`". -/
theorem claim1_stop_then_exit_report_completes :
    (stopRoute sampleRunning).1 = Resp.ok "Task stopped" ∧
    (stopRoute sampleRunning).2.task.status = Status.failed ∧
    (stopRoute sampleRunning).2.task.logs = "\n[Task stopped by user]\n" ∧
    (step (stopRoute sampleRunning).2 (Act.procClosed (some 0))).task.status = Status.completed := by
  decide

/-- C2: the terminal status `failed` written by the stop route is not
final: the subsequent `close` callback of the killed process (exit code
`null`, coalesced to 0) moves the same task row from `failed` back to
`completed` — a second terminal transition on the same task. -/
theorem claim2_terminal_status_overwritten :
    ((step sampleRunning Act.stopReq).task.status = Status.failed ∧
      (step sampleRunning Act.stopReq).task.completedAt = true) ∧
    (step (step sampleRunning Act.stopReq) (Act.procClosed none)).task.status = Status.completed ∧
    Status.completed ≠ Status.failed := by
  decide

/-- C3 counterexample: a process killed by a signal reports no exit code
(`close` fires with `null`), yet the emitted `end` event carries exit code
0 — not the subprocess's reported code — and the task is classified
`completed`, not `failed`. -/
theorem claim3_null_exit_code_coalesced :
    (procClose sampleRunningSub none).task.status = Status.completed ∧
    (procClose sampleRunningSub none).task.status ≠ Status.failed ∧
    connMsgs (procClose sampleRunningSub none) 0 = some [frameEnd "completed" 0] := by
  decide

/-- C3 amended: the `end` handler classifies by the exit code the event
carries: `completed` exactly when it is 0, `failed` exactly when it is
nonzero; and the carried code is the subprocess's reported exit code when
one is present, with a `null` report coalesced to 0. Every subscriber
receives the `end` frame carrying that coalesced code. -/
theorem claim3_end_classification (st : SrvState) (code : Option Int) :
    ((procClose st code).task.status = Status.completed ↔ code.getD 0 = 0) ∧
    ((procClose st code).task.status = Status.failed ↔ code.getD 0 ≠ 0) ∧
    (procClose st code).conns =
      writeToSubs st.subs
        (frameEnd (if code.getD 0 = 0 then Status.completed else Status.failed).str (code.getD 0))
        true st.conns := by
  unfold procClose onEnd updateTaskCompleted
  by_cases h : code.getD 0 = 0 <;> simp [h]

/-- C4 counterexample: a first `session` event stores its id, but a later
`session` event with a different id overwrites it — the persisted value is
not the first captured session id. -/
theorem claim4_second_session_overwrites :
    (step sampleRunning (Act.emitSession "sess-a")).task.sessionId = some "sess-a" ∧
    (step (step sampleRunning (Act.emitSession "sess-a")) (Act.emitSession "sess-b")).task.sessionId
      = some "sess-b" ∧
    some "sess-b" ≠ some "sess-a" := by
  decide

/-- C4 amended: the `session` handler performs an unconditional overwrite,
so after any sequence of `session` events the persisted `session_id` is the
id carried by the last event (last write wins), and it is untouched when no
session event arrives. -/
theorem claim4_last_session_wins (st : SrvState) (sids : List String) :
    (sids.foldl (fun s sid => step s (Act.emitSession sid)) st).task.sessionId
      = match sids.getLast? with
        | some l => some l
        | none => st.task.sessionId := by
  induction sids generalizing st with
  | nil => rfl
  | cons x xs ih =>
      rw [List.foldl_cons, ih]
      cases xs with
      | nil => rfl
      | cons y ys =>
          cases h : (y :: ys).getLast? with
          | none => exact absurd h (by simp [List.getLast?_eq_none_iff])
          | some l => simp [h]

/-- C9 counterexample: the same `log` event is framed `type: "log"` by the
pull transport but `type: "output"` by the push transport — the framing is
not shared for log events. -/
theorem claim9_log_frames_differ :
    pullFrame (Ev.elog "x") ≠ pushFrame (Ev.elog "x") ∧
    (pullFrame (Ev.elog "x")).type = "log" ∧
    (pushFrame (Ev.elog "x")).type = "output" := by
  decide

/-- C9 amended: the two transports frame `session`, `end` and `error`
events identically, but a `log` event is framed with tag `log` by the pull
transport and tag `output` by the push transport — same payload field,
different discriminator. -/
theorem claim9_framing_shared_except_log :
    (∀ s, pullFrame (Ev.esession s) = pushFrame (Ev.esession s)) ∧
    (∀ s c, pullFrame (Ev.eend s c) = pushFrame (Ev.eend s c)) ∧
    (∀ m, pullFrame (Ev.eerror m) = pushFrame (Ev.eerror m)) ∧
    (∀ d, (pullFrame (Ev.elog d)).type = "log" ∧
      (pushFrame (Ev.elog d)).type = "output" ∧
      (pullFrame (Ev.elog d)).data = (pushFrame (Ev.elog d)).data ∧
      pullFrame (Ev.elog d) ≠ pushFrame (Ev.elog d)) := by
  refine ⟨fun s => rfl, fun s c => rfl, fun m => rfl, fun d => ⟨rfl, rfl, rfl, ?_⟩⟩
  simp [pullFrame, pushFrame, frameLog]

/-- C10 counterexample: a request whose body carries the `input` field with
a present but falsy non-string value (`null`, the number 0) is rejected
with `Input is required` even though the field is not absent, while the
empty string is accepted. -/
theorem claim10_present_falsy_rejected :
    (inputRoute sampleRunning (some JsVal.null)).1 = Resp.err 400 "Input is required" ∧
    (inputRoute sampleRunning (some (JsVal.num 0))).1 = Resp.err 400 "Input is required" ∧
    (inputRoute sampleRunning (some (JsVal.str ""))).1 = Resp.ok "Input sent" ∧
    some JsVal.null ≠ (none : Option JsVal) := by
  decide

/-- The `Input is required` response occurs exactly when the body guard
fires: the later branches of the route all answer with other messages. -/
lemma inputRoute_required_iff (st : SrvState) (b : Option JsVal) :
    (inputRoute st b).1 = Resp.err 400 "Input is required" ↔ inputRejected b = true := by
  cases h1 : inputRejected b with
  | true => simp [inputRoute, h1]
  | false =>
      cases b with
      | none => simp [inputRejected] at h1
      | some v =>
          by_cases h2 : st.task.status = Status.running
          · by_cases h3 : st.proc = none
            · simp [inputRoute, h1, h2, h3]
            · cases hs : (sendInputToTask st (jsValToString v)).1 with
              | true => simp [inputRoute, h1, h2, h3, hs]
              | false => simp [inputRoute, h1, h2, h3, hs]
          · simp [inputRoute, h1, h2]

/-- With no live registered process, the input route never reports
success, whatever the body. -/
lemma inputRoute_not_ok_of_no_proc (st : SrvState) (b : Option JsVal)
    (h : st.proc = none) : (inputRoute st b).1.isOk = false := by
  cases h1 : inputRejected b with
  | true => simp [inputRoute, h1, Resp.isOk]
  | false =>
      by_cases h2 : st.task.status = Status.running
      · simp [inputRoute, h1, h2, h, Resp.isOk]
      · simp [inputRoute, h1, h2, Resp.isOk]

/-- C10 amended: the `Input is required` rejection fires exactly when the
`input` field is absent or holds a falsy value other than the empty string
(`null`, `false`, 0); every string — the empty string included — passes the
guard, and on a running task with a live process the empty string is
written to stdin as exactly one newline and echoed to the persisted log. -/
theorem claim10_input_guard (st : SrvState) (p : Proc)
    (hrun : st.task.status = Status.running) (hp : st.proc = some p)
    (hd : p.stdinDestroyed = false) :
    (∀ (st2 : SrvState) (b : Option JsVal),
      (inputRoute st2 b).1 = Resp.err 400 "Input is required" ↔
        (b = none ∨ ∃ v, b = some v ∧ truthy v = false ∧ v ≠ JsVal.str "")) ∧
    (inputRoute st (some (JsVal.str ""))).1 = Resp.ok "Input sent" ∧
    (inputRoute st (some (JsVal.str ""))).2.proc = some ⟨false, p.stdinWritten ++ "\n"⟩ ∧
    (inputRoute st (some (JsVal.str ""))).2.task.logs = st.task.logs ++ "\n> \n" := by
  refine ⟨fun st2 b => ?_, ?_, ?_, ?_⟩
  · rw [inputRoute_required_iff]
    cases b with
    | none => simp [inputRejected]
    | some v =>
        simp only [inputRejected, Bool.and_eq_true, Bool.not_eq_true', decide_eq_true_eq,
          Option.some.injEq, reduceCtorEq, false_or]
        constructor
        · rintro ⟨h1, h2⟩
          exact ⟨v, rfl, h1, fun he => h2 (by rw [he])⟩
        · rintro ⟨w, rfl, h1, h2⟩
          exact ⟨h1, fun he => h2 (Option.some.inj he)⟩
  · simp [inputRoute, inputRejected, truthy, hrun, hp, jsValToString, sendInputToTask, hd]
  · simp [inputRoute, inputRejected, truthy, hrun, hp, jsValToString, sendInputToTask, hd]
  · simp [inputRoute, inputRejected, truthy, hrun, hp, jsValToString, sendInputToTask, hd,
      appendTaskLogs]

/-- C10 witness: the empty string is accepted on a concrete running task. -/
theorem claim10_input_guard_witness :
    (inputRoute sampleRunning (some (JsVal.str ""))).1 = Resp.ok "Input sent" :=
  (claim10_input_guard sampleRunning ⟨false, ""⟩ rfl rfl rfl).2.1

/-- C6: an accepted `sendInput` on a running task with a live process
writes the text newline-appended to the process stdin, appends the echo
line to the persisted log (so the text followed by a newline occurs in the
log), and every subscriber registered at the time of the call receives a
`log` frame containing the text newline-appended; with no live registered
process the route never reports the write accepted. -/
theorem claim6_input_roundtrip (st : SrvState) (p : Proc) (s : String)
    (hrun : st.task.status = Status.running) (hp : st.proc = some p)
    (hd : p.stdinDestroyed = false) :
    (inputRoute st (some (JsVal.str s))).1 = Resp.ok "Input sent" ∧
    (inputRoute st (some (JsVal.str s))).2.proc = some ⟨false, p.stdinWritten ++ (s ++ "\n")⟩ ∧
    (inputRoute st (some (JsVal.str s))).2.task.logs = st.task.logs ++ ("\n> " ++ s ++ "\n") ∧
    (s ++ "\n").data <:+: (inputRoute st (some (JsVal.str s))).2.task.logs.data ∧
    (s ++ "\n").data <:+: ("\n> " ++ s ++ "\n").data ∧
    (∀ c ∈ st.conns, c.cid ∈ st.subs →
      { c with msgs := c.msgs ++ [frameLog ("\n> " ++ s ++ "\n")] }
        ∈ (inputRoute st (some (JsVal.str s))).2.conns) ∧
    (∀ (st2 : SrvState) (b : Option JsVal), st2.proc = none →
      (inputRoute st2 b).1.isOk = false) := by
  have hrej : inputRejected (some (JsVal.str s)) = false := by
    by_cases hs : s = "" <;> simp [inputRejected, truthy, hs]
  have hroute :
      inputRoute st (some (JsVal.str s)) =
        (Resp.ok "Input sent",
          { st with
              proc := some ⟨false, p.stdinWritten ++ (s ++ "\n")⟩
              task := appendTaskLogs st.task ("\n> " ++ s ++ "\n")
              conns := writeToSubs st.subs (frameLog ("\n> " ++ s ++ "\n")) false st.conns }) := by
    simp [inputRoute, hrej, hrun, hp, jsValToString, sendInputToTask, hd]
  refine ⟨by rw [hroute], by rw [hroute], by rw [hroute]; rfl, ?_, ?_, ?_, ?_⟩
  · rw [hroute]
    refine ⟨(st.task.logs ++ "\n> ").data, [], ?_⟩
    show (st.task.logs ++ "\n> ").data ++ (s ++ "\n").data ++ [] =
      (appendTaskLogs st.task ("\n> " ++ s ++ "\n")).logs.data
    simp [appendTaskLogs, String.data_append]
  · refine ⟨"\n> ".data, [], ?_⟩
    show "\n> ".data ++ (s ++ "\n").data ++ [] = ("\n> " ++ s ++ "\n").data
    simp [String.data_append]
  · intro c hc hcsub
    rw [hroute]
    show _ ∈ writeToSubs st.subs (frameLog ("\n> " ++ s ++ "\n")) false st.conns
    have hmem := List.mem_map_of_mem
      (fun c : Conn =>
        if c.cid ∈ st.subs then
          { c with msgs := c.msgs ++ [frameLog ("\n> " ++ s ++ "\n")], closed := c.closed || false }
        else c) hc
    simp only [hcsub, if_true, Bool.or_false] at hmem
    simpa [writeToSubs] using hmem
  · exact fun st2 b h => inputRoute_not_ok_of_no_proc st2 b h

/-- C6 witness: a concrete accepted write on a running task. -/
theorem claim6_input_roundtrip_witness :
    (inputRoute sampleRunning (some (JsVal.str "hello"))).1 = Resp.ok "Input sent" :=
  (claim6_input_roundtrip sampleRunning ⟨false, ""⟩ "hello" rfl rfl rfl).1

/-- Broadcasting to the registered subscribers leaves any stream whose id
is not registered untouched, as seen through `find?`. -/
lemma find?_writeToSubs (subs : List Nat) (m : WireMsg) (b : Bool) (conns : List Conn)
    (cid : Nat) (h : cid ∉ subs) :
    (writeToSubs subs m b conns).find? (fun c => c.cid == cid)
      = conns.find? (fun c => c.cid == cid) := by
  induction conns with
  | nil => rfl
  | cons c rest ih =>
      simp only [writeToSubs, List.map_cons] at ih ⊢
      by_cases hc : c.cid = cid
      · subst hc
        rw [if_neg h]
        simp [List.find?_cons]
      · have hcid : ((if c.cid ∈ subs then
            { c with msgs := c.msgs ++ [m], closed := c.closed || b } else c) : Conn).cid
              = c.cid := by
          split <;> rfl
        rw [List.find?_cons, List.find?_cons]
        have hbeq : (c.cid == cid) = false := by simpa using hc
        rw [hcid, hbeq]
        exact ih

/-- `sendInputToTask` touches only the registry entry: subscribers and
streams are unchanged. -/
lemma sendInputToTask_frame (st : SrvState) (text : String) :
    (sendInputToTask st text).2.subs = st.subs ∧
    (sendInputToTask st text).2.conns = st.conns := by
  unfold sendInputToTask
  cases st.proc with
  | none => exact ⟨rfl, rfl⟩
  | some p => by_cases hpd : p.stdinDestroyed <;> simp [hpd]

/-- A stream that is not registered and already present receives nothing
from any later event or request: its message list is stable under `step`. -/
lemma connMsgs_step (st : SrvState) (cid : Nat) (h : cid ∉ st.subs)
    (hfound : (st.conns.find? (fun c => c.cid == cid)).isSome) (a : Act) :
    connMsgs (step st a) cid = connMsgs st cid := by
  cases a with
  | emitLog d => simp [step, onLog, connMsgs, find?_writeToSubs _ _ _ _ _ h]
  | emitSession s => simp [step, onSession, connMsgs, find?_writeToSubs _ _ _ _ _ h]
  | procClosed c =>
      simp [step, procClose, onEnd, connMsgs, find?_writeToSubs _ _ _ _ _ h]
  | procErrored m =>
      simp [step, procError, onError, connMsgs, find?_writeToSubs _ _ _ _ _ h]
  | stopReq =>
      show connMsgs (stopRoute st).2 cid = connMsgs st cid
      unfold stopRoute
      split <;> rfl
  | inputReq b =>
      show connMsgs (inputRoute st b).2 cid = connMsgs st cid
      cases h1 : inputRejected b with
      | true => simp [inputRoute, h1]
      | false =>
          by_cases h2 : st.task.status = Status.running
          · by_cases h3 : st.proc = none
            · simp [inputRoute, h1, h2, h3]
            · cases b with
              | none => simp [inputRoute, h1, h2, h3]
              | some v =>
                  cases hs : (sendInputToTask st (jsValToString v)).1 with
                  | true =>
                      have hf := sendInputToTask_frame st (jsValToString v)
                      simp [inputRoute, h1, h2, h3, hs, connMsgs, hf.1, hf.2,
                        find?_writeToSubs _ _ _ _ _ h]
                  | false =>
                      have hf := sendInputToTask_frame st (jsValToString v)
                      simp [inputRoute, h1, h2, h3, hs, connMsgs, hf.2]
          · simp [inputRoute, h1, h2]
  | sseReq cid2 =>
      show connMsgs (sseSubscribeBody st cid2).2 cid = connMsgs st cid
      unfold sseSubscribeBody
      split <;> split <;>
        simp [connMsgs, List.find?_append, Option.or_of_isSome hfound]

/-- C7 counterexample: a subscription to an already-completed task whose
persisted log is empty receives exactly one message — the terminal event —
and no log-replay message at all. -/
theorem claim7_no_replay_when_log_empty :
    connMsgs
      (sseSubscribeBody ⟨⟨Status.completed, some "pid-2", "", none, true⟩, none, [], []⟩ 3).2 3
      = some [frameEndReplay "completed"] ∧
    (frameEndReplay "completed").type ≠ "log" := by
  decide

/-- C7 amended: a pull-transport subscription opened on a terminal task
receives the full persisted log as one buffered message only when that log
is non-empty (an empty log produces no replay message), then immediately
the terminal event (framed without an exit code), the response is closed,
the subscriber is never registered, and no later event or request appends
anything to its stream. -/
theorem claim7_terminal_subscribe (st : SrvState) (cid : Nat)
    (hterm : st.task.status = Status.completed ∨ st.task.status = Status.failed)
    (hsub : cid ∉ st.subs)
    (hfresh : st.conns.find? (fun c => c.cid == cid) = none) :
    connMsgs (sseSubscribeBody st cid).2 cid
      = some ((if st.task.logs ≠ "" then [frameLog st.task.logs] else [])
          ++ [frameEndReplay st.task.status.str]) ∧
    ((sseSubscribeBody st cid).2.conns.find? (fun c => c.cid == cid)).map Conn.closed
      = some true ∧
    (sseSubscribeBody st cid).2.subs = st.subs ∧
    (∀ a : Act, connMsgs (step (sseSubscribeBody st cid).2 a) cid
      = connMsgs (sseSubscribeBody st cid).2 cid) := by
  have hbody :
      (sseSubscribeBody st cid).2 =
        { st with conns := st.conns ++
            [⟨cid, (if st.task.logs ≠ "" then [frameLog st.task.logs] else [])
              ++ [frameEndReplay st.task.status.str], true⟩] } := by
    unfold sseSubscribeBody
    rw [if_pos hterm]
  have hfind :
      ((sseSubscribeBody st cid).2.conns.find? (fun c => c.cid == cid))
        = some ⟨cid, (if st.task.logs ≠ "" then [frameLog st.task.logs] else [])
            ++ [frameEndReplay st.task.status.str], true⟩ := by
    rw [hbody]
    simp [List.find?_append, hfresh, List.find?_cons]
  refine ⟨?_, ?_, ?_, ?_⟩
  · simp [connMsgs, hfind]
  · simp [hfind]
  · rw [hbody]
  · intro a
    apply connMsgs_step
    · rw [hbody]; exact hsub
    · rw [hfind]; rfl

/-- C7 witness: a concrete completed task with a non-empty log replays the
log and then the terminal event. -/
theorem claim7_terminal_subscribe_witness :
    connMsgs
      (sseSubscribeBody ⟨⟨Status.completed, some "pid-2", "out", some "sess", true⟩, none, [], []⟩ 7).2 7
      = some [frameLog "out", frameEndReplay "completed"] := by
  have h := (claim7_terminal_subscribe
    ⟨⟨Status.completed, some "pid-2", "out", some "sess", true⟩, none, [], []⟩ 7
    (Or.inl rfl) (by simp) rfl).1
  simpa [Status.str] using h

/-- C8 counterexample: with auth configured and the token missing, an
upgrade attempt on the terminal path whose `taskId` parameter does not
parse is rejected with `400 Bad Request`, not with an unauthorized status —
the `taskId` check runs before the auth gate. -/
theorem claim8_bad_taskid_not_unauthorized :
    wsUpgrade (fun _ _ => true) "/ws/terminal" none none (some "secret")
      = ⟨UpgradeResp.badRequest, false, 0⟩ ∧
    UpgradeResp.badRequest ≠ UpgradeResp.unauthorized := by
  constructor
  · rfl
  · decide

/-- C8 amended: with auth configured, a missing or invalid token never
admits the connection: the client is not registered, no WebSocket message
is sent, and the upgrade is refused; the refusal status is `401
Unauthorized` whenever the `taskId` parameter parses to a positive value on
the terminal path, while a malformed `taskId` is refused as `400 Bad
Request` before the token is even examined. -/
theorem claim8_auth_gate (verify : String → String → Bool) (pathname : String)
    (taskId : Option Int) (token : Option String) (secret : String)
    (hbad : token = none ∨ ∀ t, token = some t → verify t secret = false) :
    (wsUpgrade verify pathname taskId token (some secret)).registered = false ∧
    (wsUpgrade verify pathname taskId token (some secret)).wsMessages = 0 ∧
    (wsUpgrade verify pathname taskId token (some secret)).resp ≠ UpgradeResp.upgraded ∧
    (pathname = "/ws/terminal" → ∀ n : Int, taskId = some n → 0 < n →
      (wsUpgrade verify pathname taskId token (some secret)).resp = UpgradeResp.unauthorized) := by
  by_cases hpath : pathname = "/ws/terminal"
  · subst hpath
    cases taskId with
    | none =>
        have hu : wsUpgrade verify "/ws/terminal" none token (some secret)
            = ⟨UpgradeResp.badRequest, false, 0⟩ := by
          unfold wsUpgrade
          simp
        rw [hu]
        exact ⟨rfl, rfl, by decide, fun _ n hn => nomatch hn⟩
    | some n =>
        by_cases hn : n ≤ 0
        · have hu : wsUpgrade verify "/ws/terminal" (some n) token (some secret)
              = ⟨UpgradeResp.badRequest, false, 0⟩ := by
            unfold wsUpgrade
            simp [hn]
          rw [hu]
          refine ⟨rfl, rfl, by decide, ?_⟩
          intro _ m hm hpos
          injection hm with hm
          exact absurd hpos (by omega)
        · have hu : wsUpgrade verify "/ws/terminal" (some n) token (some secret)
              = ⟨UpgradeResp.unauthorized, false, 0⟩ := by
            unfold wsUpgrade
            rcases hbad with htok | htok
            · subst htok
              simp [hn]
            · cases token with
              | none => simp [hn]
              | some t => simp [hn, htok t rfl]
          rw [hu]
          exact ⟨rfl, rfl, by decide, fun _ _ _ _ => rfl⟩
  · have hu : wsUpgrade verify pathname taskId token (some secret)
        = ⟨UpgradeResp.destroyed, false, 0⟩ := by
      unfold wsUpgrade
      simp [hpath]
    rw [hu]
    exact ⟨rfl, rfl, by decide, fun hp => absurd hp hpath⟩

/-- The JavaScript split never yields an empty list of segments. -/
lemma splitNL_ne_nil (s : List Char) : splitNL s ≠ [] := by
  cases s with
  | nil => simp [splitNL]
  | cons c cs =>
      unfold splitNL
      split
      · simp
      · cases hs : splitNL cs with
        | nil => simp
        | cons l ls => simp [hs]

/-- Unfolding `splitNL` at a newline. -/
lemma splitNL_cons_nl (cs : List Char) : splitNL ('\n' :: cs) = [] :: splitNL cs := by
  rw [splitNL]
  simp

/-- Unfolding `splitNL` at a non-newline head character. -/
lemma splitNL_cons_of_ne (c : Char) (cs : List Char) (hc : ¬ c = '\n') :
    splitNL (c :: cs) =
      match splitNL cs with
      | [] => [[c]]
      | l :: ls => (c :: l) :: ls := by
  rw [splitNL]
  simp [hc]

/-- Splitting a concatenation: all segments of the left part but its last,
then the glued segment, then the remaining segments of the right part. -/
lemma splitNL_append (a b : List Char) :
    splitNL (a ++ b) = (splitNL a).dropLast ++
      ((splitNL a).getLastD [] ++ (splitNL b).headD []) :: (splitNL b).tail := by
  induction a with
  | nil =>
      cases hb : splitNL b with
      | nil => exact absurd hb (splitNL_ne_nil b)
      | cons h t => simp [splitNL, hb]
  | cons c cs ih =>
      by_cases hc : c = '\n'
      · subst hc
        rw [List.cons_append, splitNL_cons_nl (cs ++ b), splitNL_cons_nl cs, ih]
        cases hs : splitNL cs with
        | nil => exact absurd hs (splitNL_ne_nil cs)
        | cons l ls => simp [List.getLastD_cons]
      · rw [List.cons_append, splitNL_cons_of_ne c (cs ++ b) hc, splitNL_cons_of_ne c cs hc, ih]
        cases hs : splitNL cs with
        | nil => exact absurd hs (splitNL_ne_nil cs)
        | cons l ls =>
            cases hb : splitNL b with
            | nil => exact absurd hb (splitNL_ne_nil b)
            | cons h2 t2 =>
                cases ls with
                | nil => simp
                | cons l2 ls2 => simp [List.getLastD_cons]

/-- No segment produced by the split contains a newline. -/
lemma noNL_of_mem_splitNL (s : List Char) : ∀ seg ∈ splitNL s, '\n' ∉ seg := by
  induction s with
  | nil =>
      intro seg h
      simp [splitNL] at h
      subst h
      simp
  | cons c cs ih =>
      intro seg h
      unfold splitNL at h
      by_cases hc : c = '\n'
      · rw [if_pos hc] at h
        rcases List.mem_cons.mp h with h1 | h1
        · subst h1; simp
        · exact ih seg h1
      · rw [if_neg hc] at h
        cases hs : splitNL cs with
        | nil => exact absurd hs (splitNL_ne_nil cs)
        | cons l ls =>
            rw [hs] at h
            rcases List.mem_cons.mp h with h1 | h1
            · subst h1
              intro hmem
              rcases List.mem_cons.mp hmem with h2 | h2
              · exact hc h2.symm
              · exact ih l (by rw [hs]; exact List.mem_cons_self l ls) h2
            · exact ih seg (by rw [hs]; exact List.mem_cons_of_mem l h1)

/-- A chunk without a newline is a single segment. -/
lemma splitNL_of_noNL (s : List Char) (h : '\n' ∉ s) : splitNL s = [s] := by
  induction s with
  | nil => rfl
  | cons c cs ih =>
      have hc : ¬ c = '\n' := fun hh => h (by rw [hh]; exact List.mem_cons_self '\n' cs)
      have ih2 := ih fun hm => h (List.mem_cons_of_mem c hm)
      unfold splitNL
      rw [if_neg hc, ih2]

/-- The last (buffered) segment of a non-empty list with a default is a
member for non-empty lists. -/
lemma getLastD_mem {α : Type} (l : List α) (d : α) (h : l ≠ []) : l.getLastD d ∈ l := by
  have h1 : l.getLast? = some (l.getLast h) := List.getLast?_eq_getLast_of_ne_nil h
  have h2 : l.getLastD d = l.getLast?.getD d := by
    cases l <;> simp [List.getLastD_eq_getLast?]
  rw [h2, h1]
  exact List.getLast_mem h

/-- The buffer kept after processing a chunk never holds a newline. -/
lemma noNL_getLastD_splitNL (s : List Char) : '\n' ∉ (splitNL s).getLastD [] :=
  noNL_of_mem_splitNL s _ (getLastD_mem (splitNL s) [] (splitNL_ne_nil s))

/-- The default of `getLastD` is irrelevant past a `++ a :: l` tail. -/
lemma getLastD_append_cons {α : Type} (l1 l2 : List α) (a d : α) :
    (l1 ++ a :: l2).getLastD d = (a :: l2).getLastD d := by
  have h : (a :: l2).getLast?.isSome := by
    cases hl : (a :: l2).getLast? <;> simp_all [List.getLast?_eq_none_iff]
  simp [List.getLastD_eq_getLast?, List.getLast?_append, Option.or_of_isSome h]

/-- Processing a concatenated chunk equals processing its two parts in
sequence, with the intermediate buffer threaded through. -/
lemma onChunk_append (parse : List Char → Option StreamJson) (buf a b : List Char) :
    onChunk parse buf (a ++ b)
      = ((onChunk parse buf a).1 ++ (onChunk parse (onChunk parse buf a).2 b).1,
         (onChunk parse (onChunk parse buf a).2 b).2) := by
  unfold onChunk
  rw [show buf ++ (a ++ b) = (buf ++ a) ++ b from (List.append_assoc buf a b).symm]
  rw [splitNL_append (buf ++ a) b]
  rw [splitNL_append ((splitNL (buf ++ a)).getLastD []) b,
    splitNL_of_noNL _ (noNL_getLastD_splitNL (buf ++ a))]
  cases hb : splitNL b with
  | nil => exact absurd hb (splitNL_ne_nil b)
  | cons h2 t2 =>
      have hsome : ∀ y : List Char, ((y :: t2).getLast?).isSome := by
        intro y
        cases hl : (y :: t2).getLast? <;> simp_all [List.getLast?_eq_none_iff]
      simp [List.dropLast_append_cons, getLastD_append_cons, Option.or_of_isSome (hsome _)]

/-- Folding the data handler over a chunk list starting from any
newline-free buffer is one-shot processing of the concatenation. -/
lemma runChunks_fold (parse : List Char → Option StreamJson) :
    ∀ (chunks : List (List Char)) (acc : List REv) (buf : List Char), '\n' ∉ buf →
      chunks.foldl (fun acc chunk =>
        let out := onChunk parse acc.2 chunk
        (acc.1 ++ out.1, out.2)) (acc, buf)
      = (acc ++ (onChunk parse buf chunks.flatten).1, (onChunk parse buf chunks.flatten).2) := by
  intro chunks
  induction chunks with
  | nil =>
      intro acc buf hbuf
      simp [onChunk, splitNL_of_noNL buf hbuf]
  | cons c cs ih =>
      intro acc buf hbuf
      rw [List.foldl_cons]
      have hbuf2 : '\n' ∉ (onChunk parse buf c).2 := by
        unfold onChunk
        exact noNL_getLastD_splitNL (buf ++ c)
      rw [ih _ _ hbuf2]
      rw [show (c :: cs).flatten = c ++ cs.flatten from rfl]
      rw [onChunk_append parse buf c cs.flatten]
      simp [List.append_assoc]

/-- C5 counterexample: the whitespace-only line `"   "` arrives complete
and newline-terminated and (as in the source, where `JSON.parse` throws on
it) fails to parse, yet the handler's `!line.trim()` guard drops it: no
`log` event is emitted, so unparseable output CAN be dropped. -/
theorem claim5_blank_line_dropped :
    onChunk (fun _ => none) [] ("   \n".data) = ([], []) ∧
    splitNL ("   \n".data) = ["   ".data, []] ∧
    isBlank ("   ".data) = true ∧
    ("   ".data) ≠ [] := by
  decide

/-- C5 amended: for every chunking of the stream, folding the data handler
over the chunks is exactly one-shot processing of the concatenated stream:
every complete (newline-terminated) line is processed exactly once however
the chunk boundaries fall, the unterminated trailing fragment stays in the
buffer and is never emitted, and every complete line that fails to parse is
emitted verbatim with its newline as a single `log` event — unless it is
whitespace-only, in which case it is skipped before the parse attempt. -/
theorem claim5_chunking (parse : List Char → Option StreamJson)
    (chunks : List (List Char)) :
    runChunks parse chunks
      = ((splitNL chunks.flatten).dropLast.flatMap (lineEmits parse),
         (splitNL chunks.flatten).getLastD []) ∧
    (∀ line ∈ (splitNL chunks.flatten).dropLast, isBlank line = false → parse line = none →
      REv.log (line ++ ['\n']) ∈ (runChunks parse chunks).1) := by
  have heq : runChunks parse chunks
      = ((splitNL chunks.flatten).dropLast.flatMap (lineEmits parse),
         (splitNL chunks.flatten).getLastD []) := by
    unfold runChunks
    rw [runChunks_fold parse chunks [] [] (by simp)]
    simp [onChunk]
  refine ⟨heq, ?_⟩
  intro line hline hblank hparse
  rw [heq]
  exact List.mem_flatMap.mpr ⟨line, hline, by simp [lineEmits, hblank, hparse]⟩

/-- C8 witness: a concrete rejected upgrade — valid taskId, invalid token,
auth on — yields 401 with no registration and no message. -/
theorem claim8_auth_gate_witness :
    (wsUpgrade (fun _ _ => false) "/ws/terminal" (some 3) (some "tok") (some "sec")).registered
      = false ∧
    (wsUpgrade (fun _ _ => false) "/ws/terminal" (some 3) (some "tok") (some "sec")).resp
      = UpgradeResp.unauthorized :=
  ⟨(claim8_auth_gate (fun _ _ => false) "/ws/terminal" (some 3) (some "tok") "sec"
      (Or.inr fun t ht => rfl)).1,
   (claim8_auth_gate (fun _ _ => false) "/ws/terminal" (some 3) (some "tok") "sec"
      (Or.inr fun t ht => rfl)).2.2.2 rfl 3 rfl (by decide)⟩

end Draken
